import Mathlib

/-!
Verification of the scalable-ai-chat worker pipeline.

This development shallowly embeds the message-processing logic of the three
workers (`src/llm_worker/main.py`, `src/history_worker/main.py`,
`src/memory_worker/main.py`) as pure Lean functions.  External effects
(cache reads, bus sends, LLM streaming chunks, document-store outcomes) are
passed in explicitly as oracle inputs; fallible steps are modelled with
`Except`; Python truthiness of optional string fields is modelled by
`truthy`.  Each claim about the spec is then settled as a theorem about
these definitions.  Definitions come first, then the theorems.
-/

set_option linter.unusedVariables false

namespace ScalableChat

/-- Python truthiness of an optional string (`None` and `""` are falsy). -/
def truthy : Option String → Bool
  | none => false
  | some s => s != ""

/-- Python str.strip without arguments: remove leading and trailing
whitespace.  Implemented on the character list so that it is fully
computable; used wherever the source calls .strip(). -/
def pyStrip (s : String) : String :=
  String.mk (((s.data.dropWhile Char.isWhitespace).reverse.dropWhile Char.isWhitespace).reverse)

/-- Python string slicing s[:n], implemented on the character list. -/
def pyTake (s : String) (n : Nat) : String := String.mk (s.data.take n)

/-- Python s.replace(c, "") for a single-character pattern: remove every
occurrence of the character. -/
def removeChar (c : Char) (s : String) : String :=
  String.mk (s.data.filter (fun x => x ≠ c))

/-- Concatenation of a list of strings in order (Python "".join). -/
def strConcat : List String → String
  | [] => ""
  | s :: rest => s ++ strConcat rest

/-- The last element of a list, or a default when the list is empty. -/
def lastOr (dflt : String) : List String → String
  | [] => dflt
  | s :: rest => lastOr s rest

/-- Settlement of a service-bus message by the worker shell. -/
inductive Settlement
  | complete
  | abandon
deriving Repr, DecidableEq

/-- A reconstructed tool call as placed on an assistant message
(`tool_call_dict` in `process_message`, llm_worker lines 593-600). -/
structure ToolCallRec where
  id : String
  name : String
  arguments : String
deriving Repr, DecidableEq

/-- A message as stored in the cached conversation JSON
(llm_worker `update_conversation_history`, lines 356-383).  The optional
`tool_calls` / `tool_call_id` fields model the presence of those JSON keys. -/
structure StoredMsg where
  messageId : String
  role : String
  content : String
  timestamp : String
  tool_calls : Option (List ToolCallRec) := none
  tool_call_id : Option String := none
deriving Repr, DecidableEq

/-- The cached conversation object keyed by `session:{sessionId}`
(llm_worker lines 345-351).  `userId` is optional because the request field
it is copied from is not validated and may be null in the JSON. -/
structure Conversation where
  sessionId : String
  userId : Option String
  createdAt : String
  lastActivity : String
  title : Option String
  messages : List StoredMsg
deriving Repr, DecidableEq

/-- A message in OpenAI chat format as sent to the LLM
(llm_worker lines 306-321, 463-491). -/
structure OAIMsg where
  role : String
  content : String
  tool_calls : Option (List ToolCallRec) := none
  tool_call_id : Option String := none
deriving Repr, DecidableEq

/-- Conversion of a stored message to OpenAI format
(llm_worker `get_conversation_history`, lines 305-321): `tool_calls` is
carried over only when present and non-empty (Python truthiness of a list),
`tool_call_id` whenever the key is present. -/
def toOAIMsg (m : StoredMsg) : OAIMsg :=
  { role := m.role
    content := m.content
    tool_calls :=
      match m.tool_calls with
      | some tcs => if tcs.isEmpty then none else some tcs
      | none => none
    tool_call_id := m.tool_call_id }

/-- Embedding of llm_worker `get_conversation_history` (lines 286-328).
`cached` is the parsed cache value for `session:{sessionId}` (`none` both
when the key is absent and when the read or parse fails, since every error
path returns `[]`).  A stored `userId` different from the request's user id
yields the empty history. -/
def get_conversation_history (cached : Option Conversation) (user_id : Option String) :
    List OAIMsg :=
  match cached with
  | none => []
  | some conversation =>
    if conversation.userId ≠ user_id then []
    else conversation.messages.map toOAIMsg

/-- Embedding of llm_worker `update_conversation_history` (lines 330-396),
the only code path that writes the cached conversation.  On a new session a
truthy `system_message` is stored first; then the user message and the
assistant response are appended, `lastActivity` is refreshed. -/
def update_conversation_history (cached : Option Conversation) (session_id : String)
    (user_id : Option String) (user_message : String) (assistant_response : String)
    (chat_message_id : String) (system_message : Option String) (current_time : String) :
    Conversation :=
  let conversation : Conversation :=
    match cached with
    | some conv => conv
    | none =>
      let base : Conversation :=
        { sessionId := session_id, userId := user_id, createdAt := current_time
          lastActivity := current_time, title := none, messages := [] }
      if truthy system_message then
        { base with
          messages := [{ messageId := chat_message_id ++ "_system", role := "system"
                         content := system_message.getD "", timestamp := current_time }] }
      else base
  let conversation := { conversation with lastActivity := current_time }
  let user_msg : StoredMsg :=
    { messageId := chat_message_id ++ "_user", role := "user"
      content := user_message, timestamp := current_time }
  let assistant_msg : StoredMsg :=
    { messageId := chat_message_id ++ "_assistant", role := "assistant"
      content := assistant_response, timestamp := current_time }
  { conversation with messages := conversation.messages ++ [user_msg, assistant_msg] }

/-- Head-of-history system check (llm_worker lines 466-470). -/
def has_system_head (history : List OAIMsg) : Bool :=
  match history with
  | m :: _ => m.role == "system"
  | [] => false

/-- Construction of the message list for the first LLM call
(llm_worker lines 463-491): optional fresh system message, then the loaded
history, then the current user text. -/
def build_llm_messages (conversation_history : List OAIMsg)
    (system_message_content : String) (user_text : String) : List OAIMsg :=
  let messages : List OAIMsg :=
    if !(has_system_head conversation_history) then
      [{ role := "system", content := system_message_content }]
    else []
  let messages := messages ++ conversation_history
  messages ++ [{ role := "user", content := user_text }]

/-- A message that the LLM worker may legitimately persist: role is
`system`, `user` or `assistant`, the `messageId` is the chat message id
suffixed with the role, and neither `tool_calls` nor `tool_call_id` is
stored. -/
def persistedMsgOk (m : StoredMsg) : Prop :=
  ((m.role = "system" ∧ ∃ cmid, m.messageId = cmid ++ "_system") ∨
   (m.role = "user" ∧ ∃ cmid, m.messageId = cmid ++ "_user") ∨
   (m.role = "assistant" ∧ ∃ cmid, m.messageId = cmid ++ "_assistant")) ∧
  m.tool_calls = none ∧ m.tool_call_id = none

/-- Well-formedness of a cached conversation: every stored message is one
the worker may persist. -/
def CacheWf (c : Conversation) : Prop := ∀ m ∈ c.messages, persistedMsgOk m

/-- Cache states reachable through the LLM worker's writes.  The worker
writes the cache only through `update_conversation_history` (called at
llm_worker line 716 with plain string contents); the first write of a
session starts from an absent entry. -/
inductive ReachableCache : Conversation → Prop
  | first (session_id : String) (user_id : Option String)
      (user_message assistant_response chat_message_id : String)
      (system_message : Option String) (t : String) :
      ReachableCache (update_conversation_history none session_id user_id user_message
        assistant_response chat_message_id system_message t)
  | next (c : Conversation) (session_id : String) (user_id : Option String)
      (user_message assistant_response chat_message_id : String)
      (system_message : Option String) (t : String) (h : ReachableCache c) :
      ReachableCache (update_conversation_history (some c) session_id user_id user_message
        assistant_response chat_message_id system_message t)

/-- A streamed tool-call delta function fragment (`tool_call.function`). -/
structure DeltaFunction where
  name : Option String
  arguments : Option String
deriving Repr, DecidableEq

/-- A streamed tool-call delta (`delta.tool_calls[k]` in llm_worker
lines 538-567): the index is always present, id and function may not be. -/
structure ToolCallDelta where
  index : Nat
  id : Option String
  function : Option DeltaFunction
deriving Repr, DecidableEq

/-- Accumulator entry for one tool call keyed by index
(llm_worker lines 545-551). -/
structure FuncCallAcc where
  id : String
  index : Nat
  name : String
  arguments : String
deriving Repr, DecidableEq

/-- Fresh accumulator entry (llm_worker lines 546-551). -/
def initEntry (i : Nat) : FuncCallAcc := { id := "", index := i, name := "", arguments := "" }

/-- Id update of one entry (llm_worker lines 555-557): a truthy id
overwrites the stored one. -/
def updId (f : FuncCallAcc) : Option String → FuncCallAcc
  | some s => if s != "" then { f with id := s } else f
  | none => f

/-- Name update of one entry (llm_worker lines 560-562): a truthy name
overwrites the stored one. -/
def updName (f : FuncCallAcc) : Option String → FuncCallAcc
  | some n => if n != "" then { f with name := n } else f
  | none => f

/-- Arguments update of one entry (llm_worker lines 564-566): any
non-null fragment is appended. -/
def updArgs (f : FuncCallAcc) : Option String → FuncCallAcc
  | some a => { f with arguments := f.arguments ++ a }
  | none => f

/-- Application of one delta to the entry at its index
(llm_worker lines 554-567): id first, then, when a function payload is
present, name and arguments. -/
def updateEntry (f : FuncCallAcc) (d : ToolCallDelta) : FuncCallAcc :=
  match d.function with
  | none => updId f d.id
  | some fn => updArgs (updName (updId f d.id) fn.name) fn.arguments

/-- The `function_calls` dict as an insertion-ordered association list on
`index`; one delta updates the existing entry at its index or appends a
fresh one (llm_worker lines 543-567). -/
def applyDelta : List FuncCallAcc → ToolCallDelta → List FuncCallAcc
  | [], d => [updateEntry (initEntry d.index) d]
  | f :: fs, d =>
    if f.index = d.index then updateEntry f d :: fs
    else f :: applyDelta fs d

/-- Reassembly of the whole delta stream in arrival order. -/
def reassemble (ds : List ToolCallDelta) : List FuncCallAcc := ds.foldl applyDelta []

/-- The id carried by one delta, when truthy. -/
def idFrag (d : ToolCallDelta) : Option String :=
  match d.id with
  | some s => if s = "" then none else some s
  | none => none

/-- The function name carried by one delta, when truthy. -/
def nameFrag (d : ToolCallDelta) : Option String :=
  match d.function with
  | some fn =>
    match fn.name with
    | some n => if n = "" then none else some n
    | none => none
  | none => none

/-- The argument fragment carried by one delta, when non-null. -/
def argFrag (d : ToolCallDelta) : Option String := d.function.bind (fun fn => fn.arguments)

/-- The truthy ids that arrived for index `i`, in arrival order. -/
def idFragments (i : Nat) (ds : List ToolCallDelta) : List String :=
  (ds.filter (fun d => d.index = i)).filterMap idFrag

/-- The truthy names that arrived for index `i`, in arrival order. -/
def nameFragments (i : Nat) (ds : List ToolCallDelta) : List String :=
  (ds.filter (fun d => d.index = i)).filterMap nameFrag

/-- The argument fragments that arrived for index `i`, in arrival order. -/
def argFragments (i : Nat) (ds : List ToolCallDelta) : List String :=
  (ds.filter (fun d => d.index = i)).filterMap argFrag

/-- The logical tool call at index `i` of a delta stream, as the spec
describes it: the last name and id that arrived for that index, and the
concatenation in arrival order of its argument fragments. -/
def specCallAt (i : Nat) (ds : List ToolCallDelta) : FuncCallAcc :=
  { id := lastOr "" (idFragments i ds), index := i
    name := lastOr "" (nameFragments i ds)
    arguments := strConcat (argFragments i ds) }

/-- One reassembly step restricted to the entry of index `i`. -/
def stepFor (i : Nat) (f : FuncCallAcc) (d : ToolCallDelta) : FuncCallAcc :=
  if d.index = i then updateEntry f d else f

/-- Post-processing of ids (llm_worker lines 580-583): an id still empty
after the stream becomes `call_index_{index}`. -/
def postProcessId (f : FuncCallAcc) : FuncCallAcc :=
  if f.id = "" ∨ pyStrip f.id = "" then { f with id := "call_index_" ++ toString f.index }
  else f

/-- Selection of tool calls for the assistant message (llm_worker lines
585-602): calls with an empty or blank name are dropped; empty arguments
become the empty JSON object. -/
def assistantToolCalls (fs : List FuncCallAcc) : List ToolCallRec :=
  fs.filterMap (fun f =>
    if f.name = "" ∨ pyStrip f.name = "" then none
    else some { id := f.id, name := f.name
                arguments := if f.arguments = "" then "\x7b\x7d" else f.arguments })

/-- The calls actually dispatched (llm_worker lines 615-669): blank names
are skipped and only `search_conversation_history` is executed. -/
def executedCalls (fs : List FuncCallAcc) : List FuncCallAcc :=
  fs.filter (fun f =>
    !(f.name == "" || pyStrip f.name == "") && f.name == "search_conversation_history")

/-- The tool calls attached to the assistant message after a whole stream:
reassemble, post-process ids, filter empty names. -/
def finalToolCalls (ds : List ToolCallDelta) : List ToolCallRec :=
  assistantToolCalls ((reassemble ds).map postProcessId)

/-- A concrete delta stream with fragmented arguments, an id arriving only
in the fourth delta, a call without any id, and a nameless call. -/
def sampleDeltaStream : List ToolCallDelta :=
  [ { index := 0, id := none
      function := some { name := some "search_conversation_history", arguments := some "" } }
  , { index := 0, id := none, function := some { name := none, arguments := some "sea" } }
  , { index := 2, id := none
      function := some { name := some "search_conversation_history", arguments := some "q=x" } }
  , { index := 0, id := some "call_abc", function := some { name := none, arguments := some "rch_" } }
  , { index := 1, id := none, function := some { name := none, arguments := some "orphan" } }
  , { index := 0, id := none, function := some { name := none, arguments := some "query=vaca" } }
  , { index := 0, id := none, function := some { name := none, arguments := some "tion" } } ]

/-- One streamed choice delta (`chunk.choices[0].delta`): optional content
and a possibly empty list of tool-call deltas.  A chunk with no choices,
such as the final usage chunk, is modelled as `none`. -/
structure StreamDelta where
  content : Option String
  tool_calls : List ToolCallDelta
deriving Repr, DecidableEq

/-- The content token of a chunk, when the chunk has a choice whose delta
carries truthy content (llm_worker lines 517-524 and 688-689). -/
def contentToken (c : Option StreamDelta) : Option String :=
  match c with
  | some d =>
    match d.content with
    | some s => if s = "" then none else some s
    | none => none
  | none => none

/-- The content tokens of a streamed completion, in order. -/
def streamTokens (chunks : List (Option StreamDelta)) : List String :=
  chunks.filterMap contentToken

/-- The tool-call deltas of a streamed completion, in arrival order
(llm_worker lines 538-539). -/
def streamToolDeltas (chunks : List (Option StreamDelta)) : List ToolCallDelta :=
  (chunks.map (fun c => match c with | some d => d.tool_calls | none => [])).flatten

/-- A Token event on token-streams (llm_worker lines 526-534). -/
structure TokenEvent where
  sessionId : String
  chatMessageId : String
  token : String
deriving Repr, DecidableEq

/-- The Token events published for a list of tokens. -/
def mkTokenEvents (session_id chat_message_id : String) (toks : List String) :
    List TokenEvent :=
  toks.map (fun t => { sessionId := session_id, chatMessageId := chat_message_id, token := t })

/-- A failure that escapes `process_message`: a bus send raising. -/
inductive ProcErr
  | busSend
deriving Repr, DecidableEq

/-- Publication of a list of tokens on token-streams: the `n`-th overall
send succeeds iff `sendOk n`; a failed send raises out of the streaming
loop (llm_worker line 535 and line 701).  Returns the next send counter. -/
def sendTokenEvents (sendOk : Nat → Bool) : Nat → List String → Except ProcErr Nat
  | n, [] => .ok n
  | n, _ :: rest =>
    if sendOk n then sendTokenEvents sendOk (n + 1) rest else .error .busSend

/-- A Chat Request as decoded from the user-messages body
(llm_worker lines 435-438). -/
structure ChatRequest where
  text : Option String
  sessionId : Option String
  chatMessageId : Option String
  userId : Option String
deriving Repr, DecidableEq

/-- The required-fields check of llm_worker line 440:
`all` over Python truthiness of text, sessionId, chatMessageId. -/
def validRequest (r : ChatRequest) : Bool :=
  truthy r.text && truthy r.sessionId && truthy r.chatMessageId

/-- Oracle inputs of one `process_message` run: the external world the
turn observes (cache content, rendered system prompt, the two LLM chunk
streams, bus-send and cache-write outcomes, wall-clock time). -/
structure LlmOracles where
  cached : Option Conversation
  system_prompt : String
  firstChunks : List (Option StreamDelta)
  followupChunks : List (Option StreamDelta)
  sendOk : Nat → Bool
  cacheWriteOk : Bool
  completedSendOk : Bool
  now : String

/-- Observable effects of one `process_message` run that returns
normally. -/
structure LlmEffects where
  tokens : List TokenEvent
  eosSent : Bool
  cacheAfter : Option Conversation
  completedPublished : Bool
deriving Repr, DecidableEq

/-- The tokens of the whole turn: the first streaming call plus, when the
reassembled calls contain at least one valid named tool call, the
follow-up call after tool execution (llm_worker lines 569-613 gate the
follow-up on a non-empty `function_calls` dict and a non-empty
`assistant_tool_calls` list; lines 682-702 stream the follow-up). -/
def llmTurnTokens (o : LlmOracles) : List String :=
  let fcs := reassemble (streamToolDeltas o.firstChunks)
  let toolRound := !fcs.isEmpty && !(assistantToolCalls (fcs.map postProcessId)).isEmpty
  streamTokens o.firstChunks ++ (if toolRound then streamTokens o.followupChunks else [])

/-- Embedding of llm_worker `process_message` (lines 426-743) at the level
of its observable effects.  `req = none` models a body that fails to parse
as JSON: the `json.JSONDecodeError` handler (lines 727-734) swallows the
error, so the call returns normally with no effects.  A request missing a
required field also returns normally with no effects (lines 440-443): no
`end_of_stream` event is emitted on that path.  A raising bus send on
token-streams propagates, because the generic `except Exception` handler
re-raises (lines 735-743).  The cache-write failure (lines 394-396) and
the message-completed publish failure (lines 422-424) are swallowed inside
their callees, so they never abort the turn. -/
def process_message (req : Option ChatRequest) (o : LlmOracles) : Except ProcErr LlmEffects :=
  match req with
  | none =>
    .ok { tokens := [], eosSent := false, cacheAfter := o.cached, completedPublished := false }
  | some r =>
    if !(validRequest r) then
      .ok { tokens := [], eosSent := false, cacheAfter := o.cached, completedPublished := false }
    else
      let user_text := r.text.getD ""
      let session_id := r.sessionId.getD ""
      let chat_message_id := r.chatMessageId.getD ""
      let conversation_history := get_conversation_history o.cached r.userId
      let turnTokens := llmTurnTokens o
      match sendTokenEvents o.sendOk 0 turnTokens with
      | .error e => .error e
      | .ok n =>
        if o.sendOk n then
          let assistant_response := strConcat turnTokens
          let system_msg_to_store :=
            if !(has_system_head conversation_history) then some o.system_prompt else none
          let cacheAfter :=
            if o.cacheWriteOk then
              some (update_conversation_history o.cached session_id r.userId user_text
                assistant_response chat_message_id system_msg_to_store o.now)
            else o.cached
          .ok { tokens := mkTokenEvents session_id chat_message_id turnTokens
                eosSent := true
                cacheAfter := cacheAfter
                completedPublished := o.completedSendOk }
        else .error .busSend

/-- Embedding of llm_worker `_process_and_handle_message` (lines 745-776):
complete the bus message on normal return, abandon it when
`process_message` raises. -/
def handle_llm_message (req : Option ChatRequest) (o : LlmOracles) :
    Settlement × Option LlmEffects :=
  match process_message req o with
  | .ok eff => (Settlement.complete, some eff)
  | .error _ => (Settlement.abandon, none)

/-- A well-formed Chat Request used by the concrete scenarios. -/
def sampleRequest : ChatRequest :=
  { text := some "Hello", sessionId := some "s1", chatMessageId := some "m1"
    userId := some "u1" }

/-- A Chat Request with a missing `text` field. -/
def sampleRequestNoText : ChatRequest :=
  { text := none, sessionId := some "s1", chatMessageId := some "m1", userId := some "u1" }

/-- An oracle where every token-streams send succeeds but the
message-completed publish fails. -/
def sampleOraclesCompletedFail : LlmOracles :=
  { cached := none, system_prompt := "sys"
    firstChunks := [some { content := some "Hi", tool_calls := [] }, none]
    followupChunks := [], sendOk := fun _ => true, cacheWriteOk := true
    completedSendOk := false, now := "t0" }

/-- An oracle whose second token-streams send (an intermediate Token
event, not the first and not the sentinel) fails. -/
def sampleOraclesTokenFail : LlmOracles :=
  { cached := none, system_prompt := "sys"
    firstChunks := [ some { content := some "A", tool_calls := [] }
                   , some { content := some "B", tool_calls := [] }
                   , some { content := some "C", tool_calls := [] } ]
    followupChunks := [], sendOk := fun n => !(n == 1), cacheWriteOk := true
    completedSendOk := true, now := "t0" }

/-- An oracle with a tool round: a first stream with content and a tool
call, then a follow-up stream with more content. -/
def sampleOraclesToolRound : LlmOracles :=
  { cached := none, system_prompt := "sys"
    firstChunks :=
      [ some { content := some "Let me check. ", tool_calls := [] }
      , some { content := none
               tool_calls := [{ index := 0, id := some "call_1"
                                function := some { name := some "search_conversation_history"
                                                   arguments := some "q" } }] }
      , none ]
    followupChunks := [some { content := some "Found it.", tool_calls := [] }]
    sendOk := fun _ => true, cacheWriteOk := true, completedSendOk := true, now := "t1" }

/-- The conversation analysis produced by the memory worker's summary step
(`ConversationSummary.model_dump`, memory_worker lines 273-358). -/
structure ConversationAnalysis where
  summary : String
  themes : List String
  persons : List String
  places : List String
  user_sentiment : String
deriving Repr, DecidableEq

/-- Outcome of an LLM call with strict JSON schema: a parsed value, a
schema-validation failure, or a raised call error. -/
inductive LlmJsonResult (α : Type)
  | ok (a : α)
  | parseFailure
  | callError
deriving Repr, DecidableEq

/-- Embedding of memory_worker `extract_conversation_summary`
(lines 273-358): an empty message list, a schema-validation failure and a
raised call each fall back to a neutral default; the function never
raises. -/
def extract_conversation_summary (conv : Conversation)
    (llm : LlmJsonResult ConversationAnalysis) : ConversationAnalysis :=
  if conv.messages.isEmpty then
    { summary := "Empty conversation", themes := [], persons := [], places := []
      user_sentiment := "neutral" }
  else
    match llm with
    | .ok a => a
    | .parseFailure =>
      { summary := "Failed to analyze conversation", themes := [], persons := []
        places := [], user_sentiment := "neutral" }
    | .callError =>
      { summary := "Error analyzing conversation", themes := [], persons := []
        places := [], user_sentiment := "neutral" }

/-- The raw nine-field extraction result under the strict JSON schema
(`UserMemoryUpdates.model_dump`, memory_worker lines 428-434): every field
is present, possibly empty. -/
structure UserMemoryUpdatesRaw where
  output_preferences : List String
  personal_preferences : List String
  assistant_preferences : List String
  knowledge : List String
  interests : List String
  dislikes : List String
  family_and_friends : List String
  work_profile : List String
  goals : List String
deriving Repr, DecidableEq

/-- The filtered updates dict (memory_worker lines 435-444): a field is
present exactly when its array is non-empty. -/
structure UserMemoryUpdates where
  output_preferences : Option (List String)
  personal_preferences : Option (List String)
  assistant_preferences : Option (List String)
  knowledge : Option (List String)
  interests : Option (List String)
  dislikes : Option (List String)
  family_and_friends : Option (List String)
  work_profile : Option (List String)
  goals : Option (List String)
deriving Repr, DecidableEq

/-- Keep a list field only when non-empty (the `len(v) > 0` filter of
memory_worker line 438). -/
def keepNonEmpty (l : List String) : Option (List String) :=
  if l.isEmpty then none else some l

/-- Embedding of the filtering loop of memory_worker lines 435-444 over
the nine list fields. -/
def filterMemoryUpdates (r : UserMemoryUpdatesRaw) : UserMemoryUpdates :=
  { output_preferences := keepNonEmpty r.output_preferences
    personal_preferences := keepNonEmpty r.personal_preferences
    assistant_preferences := keepNonEmpty r.assistant_preferences
    knowledge := keepNonEmpty r.knowledge
    interests := keepNonEmpty r.interests
    dislikes := keepNonEmpty r.dislikes
    family_and_friends := keepNonEmpty r.family_and_friends
    work_profile := keepNonEmpty r.work_profile
    goals := keepNonEmpty r.goals }

/-- The empty updates dict. -/
def noUpdates : UserMemoryUpdates :=
  { output_preferences := none, personal_preferences := none
    assistant_preferences := none, knowledge := none, interests := none
    dislikes := none, family_and_friends := none, work_profile := none, goals := none }

/-- Python truthiness of the updates dict (`if not updates`,
memory_worker line 500, and `if memory_updates`, line 671). -/
def updatesNonEmpty (u : UserMemoryUpdates) : Bool :=
  u.output_preferences.isSome || u.personal_preferences.isSome ||
  u.assistant_preferences.isSome || u.knowledge.isSome || u.interests.isSome ||
  u.dislikes.isSome || u.family_and_friends.isSome || u.work_profile.isSome ||
  u.goals.isSome

/-- Embedding of memory_worker `extract_user_memory_updates`
(lines 361-451): no messages or no user messages yields no updates; a
schema-validation failure and a raised call are swallowed to no updates. -/
def extract_user_memory_updates (conv : Conversation)
    (llm : LlmJsonResult UserMemoryUpdatesRaw) : UserMemoryUpdates :=
  if conv.messages.isEmpty then noUpdates
  else if (conv.messages.filter (fun m => m.role == "user")).isEmpty then noUpdates
  else
    match llm with
    | .ok raw => filterMemoryUpdates raw
    | .parseFailure => noUpdates
    | .callError => noUpdates

/-- The stored user-memory document (memory_worker lines 513-526). -/
structure UserMemoryDoc where
  id : String
  userId : String
  timestamp : String
  output_preferences : List String
  personal_preferences : List String
  assistant_preferences : List String
  knowledge : List String
  interests : List String
  dislikes : List String
  family_and_friends : List String
  work_profile : List String
  goals : List String
deriving Repr, DecidableEq

/-- The zero-initialized user-memory document created when none exists
(memory_worker lines 513-526). -/
def zeroUserMemoryDoc (user_id now : String) : UserMemoryDoc :=
  { id := user_id, userId := user_id, timestamp := now
    output_preferences := [], personal_preferences := [], assistant_preferences := []
    knowledge := [], interests := [], dislikes := [], family_and_friends := []
    work_profile := [], goals := [] }

/-- Embedding of memory_worker `update_user_memory` (lines 494-552) up to
the upsert: empty updates return without writing; otherwise each returned
memory field replaces the stored field entirely, fields not returned keep
their stored value, and the timestamp is refreshed.  Returns the document
to upsert, or `none` when nothing is written. -/
def update_user_memory (existing : Option UserMemoryDoc) (user_id : String)
    (updates : UserMemoryUpdates) (now : String) : Option UserMemoryDoc :=
  if !(updatesNonEmpty updates) then none
  else
    let doc := existing.getD (zeroUserMemoryDoc user_id now)
    some { doc with
      output_preferences := updates.output_preferences.getD doc.output_preferences
      personal_preferences := updates.personal_preferences.getD doc.personal_preferences
      assistant_preferences := updates.assistant_preferences.getD doc.assistant_preferences
      knowledge := updates.knowledge.getD doc.knowledge
      interests := updates.interests.getD doc.interests
      dislikes := updates.dislikes.getD doc.dislikes
      family_and_friends := updates.family_and_friends.getD doc.family_and_friends
      work_profile := updates.work_profile.getD doc.work_profile
      goals := updates.goals.getD doc.goals
      timestamp := now }

/-- The conversation-memory document (memory_worker lines 470-481).
Embedding-vector entries are opaque integers since their values never
matter to the control flow. -/
structure ConversationMemoryDoc where
  id : String
  userId : String
  sessionId : String
  summary : String
  timestamp : String
  themes : List String
  persons : List String
  places : List String
  user_sentiment : String
  vector_embedding : List Int
deriving Repr, DecidableEq

/-- Embedding of memory_worker `store_conversation_memory`
(lines 454-491): builds the document and upserts it; an embedding failure
was already reduced to the empty vector by `generate_vector_embedding`,
and an upsert failure is caught and logged, never raised.  Returns the
stored document, or `none` when the upsert failed. -/
def store_conversation_memory (session_id user_id : String)
    (analysis : ConversationAnalysis) (embedding : List Int) (upsertOk : Bool)
    (now : String) : Option ConversationMemoryDoc :=
  if upsertOk then
    some { id := session_id ++ "_" ++ user_id, userId := user_id, sessionId := session_id
           summary := analysis.summary, timestamp := now, themes := analysis.themes
           persons := analysis.persons, places := analysis.places
           user_sentiment := analysis.user_sentiment, vector_embedding := embedding }
  else none

/-- A Completion event as decoded from a message-completed body. -/
structure CompletionEvent where
  sessionId : Option String
  userId : Option String
  chatMessageId : Option String
deriving Repr, DecidableEq

/-- Oracle inputs of one memory-worker message: the cache content (`none`
models a missing key, an empty dict and a raising read alike, since
`get_conversation_from_redis` returns `{}` on every failure, memory_worker
lines 597-610), the two LLM results, the embedding result (`none` models
the raising call, reduced to `[]` at lines 268-270), both upsert outcomes,
and the read of the existing user-memory document (whose own failures
yield an empty default, lines 555-594). -/
structure MemOracles where
  cached : Option Conversation
  analysisLLM : LlmJsonResult ConversationAnalysis
  embedding : Option (List Int)
  convUpsertOk : Bool
  existingUserMemory : Option UserMemoryDoc
  extractLLM : LlmJsonResult UserMemoryUpdatesRaw
  userUpsertOk : Bool
  now : String

/-- Observable effects of one `process_completed_message` run. -/
structure MemEffects where
  convMemoryWritten : Option ConversationMemoryDoc
  userMemoryWritten : Option UserMemoryDoc
deriving Repr, DecidableEq

/-- Embedding of memory_worker `process_completed_message`
(lines 613-692).  Every step swallows its own failures: missing
sessionId or userId returns (lines 638-642), a missing cached
conversation returns (lines 648-652), the summary, embedding and
extraction steps fall back internally, and both upserts catch their own
exceptions — so the function never raises once the body has parsed. -/
def process_completed_message (body : CompletionEvent) (o : MemOracles) : MemEffects :=
  if !(truthy body.sessionId && truthy body.userId) then
    { convMemoryWritten := none, userMemoryWritten := none }
  else
    let session_id := body.sessionId.getD ""
    let user_id := body.userId.getD ""
    match o.cached with
    | none => { convMemoryWritten := none, userMemoryWritten := none }
    | some conv =>
      let analysis := extract_conversation_summary conv o.analysisLLM
      let convDoc := store_conversation_memory session_id user_id analysis
        (o.embedding.getD []) o.convUpsertOk o.now
      let memory_updates := extract_user_memory_updates conv o.extractLLM
      let userDoc :=
        if updatesNonEmpty memory_updates then
          if o.userUpsertOk then
            update_user_memory o.existingUserMemory user_id memory_updates o.now
          else none
        else none
      { convMemoryWritten := convDoc, userMemoryWritten := userDoc }

/-- Embedding of the memory worker's `_process_and_handle_message`
(lines 695-740): the body is parsed inside the try block, so a JSON parse
failure abandons; once parsed, `process_completed_message` always returns
normally and the message is completed. -/
def handle_memory_message (rawBody : Option CompletionEvent) (o : MemOracles) :
    Settlement × Option MemEffects :=
  match rawBody with
  | none => (Settlement.abandon, none)
  | some body => (Settlement.complete, some (process_completed_message body o))

/-- A concrete Completion event with all fields present. -/
def sampleCompletionEvent : CompletionEvent :=
  { sessionId := some "s1", userId := some "u1", chatMessageId := some "m1" }

/-- A memory-worker oracle whose cache read finds nothing and whose store
upserts would fail. -/
def sampleMemOraclesMissingCache : MemOracles :=
  { cached := none, analysisLLM := .callError, embedding := none, convUpsertOk := false
    existingUserMemory := none, extractLLM := .callError, userUpsertOk := false
    now := "t0" }

/-- A cached two-message conversation used by the memory-worker runs. -/
def sampleCachedConversation : Conversation :=
  { sessionId := "s1", userId := some "u1", createdAt := "t", lastActivity := "t"
    title := none
    messages :=
      [ { messageId := "m1_user", role := "user", content := "I like hiking"
          timestamp := "t" }
      , { messageId := "m1_assistant", role := "assistant", content := "Great!"
          timestamp := "t" } ] }

/-- A memory-worker oracle with a cached conversation but failing
document-store upserts. -/
def sampleMemOraclesUpsertFail : MemOracles :=
  { cached := some sampleCachedConversation
    analysisLLM := .ok { summary := "User likes hiking", themes := ["hiking"]
                         persons := [], places := [], user_sentiment := "positive" }
    embedding := some [1, 2], convUpsertOk := false
    existingUserMemory := none
    extractLLM := .ok { output_preferences := [], personal_preferences := []
                        assistant_preferences := [], knowledge := []
                        interests := ["hiking"], dislikes := [], family_and_friends := []
                        work_profile := [], goals := [] }
    userUpsertOk := false, now := "t2" }

/-- A stored user-memory document with values in several fields. -/
def sampleExistingUserMemory : UserMemoryDoc :=
  { id := "u1", userId := "u1", timestamp := "t0"
    output_preferences := ["short answers"], personal_preferences := []
    assistant_preferences := [], knowledge := ["lean"], interests := ["chess"]
    dislikes := [], family_and_friends := [], work_profile := [], goals := [] }

/-- A raw extraction result updating two fields and leaving the rest
empty. -/
def sampleRawUpdates : UserMemoryUpdatesRaw :=
  { output_preferences := [], personal_preferences := []
    assistant_preferences := [], knowledge := []
    interests := ["chess", "hiking"], dislikes := [], family_and_friends := []
    work_profile := [], goals := ["run a marathon"] }

/-- The double-quote character stripped from titles. -/
def doubleQuoteChar : Char := Char.ofNat 34

/-- The single-quote character stripped from titles. -/
def singleQuoteChar : Char := Char.ofNat 39

/-- The replace chain of history_worker line 267: remove double quotes,
then single quotes, then colons. -/
def stripTitleChars (s : String) : String :=
  removeChar ':' (removeChar singleQuoteChar (removeChar doubleQuoteChar s))

/-- The length cap of history_worker lines 268-269: cut to 50 characters
and re-strip, only when over the limit. -/
def capTitle (s : String) : String :=
  if s.length > 50 then pyStrip (pyTake s 50) else s

/-- Title cleanup of history_worker lines 264-273: strip the LLM content,
remove quotes and colons, cap to 50 characters, and fall back to the
default when the result is empty. -/
def cleanupTitle (content : String) : String :=
  let generated_title := capTitle (stripTitleChars (pyStrip content))
  if generated_title = "" then "New Conversation" else generated_title

/-- Embedding of history_worker `generate_conversation_title`
(lines 224-282).  The `llm` argument is the outcome of the title
completion call (its content); any raised error yields the fallback title,
since the whole body sits inside a try whose handler returns it
(lines 278-282). -/
def generate_conversation_title (conversation_data : Conversation)
    (llm : Except Unit String) : String :=
  if conversation_data.messages.isEmpty then "New Conversation"
  else if truthy conversation_data.title then conversation_data.title.getD ""
  else
    let conversation_excerpt := (conversation_data.messages.take 6).filterMap (fun m =>
      if m.role = "user" then some ("User: " ++ pyTake m.content 150)
      else if m.role = "assistant" then some ("Assistant: " ++ pyTake m.content 150)
      else none)
    if conversation_excerpt.isEmpty then "New Conversation"
    else
      match llm with
      | .error _ => "New Conversation"
      | .ok content => cleanupTitle content

/-- Outcome of one document-store upsert attempt. -/
inductive UpsertOutcome
  | success
  | throttle
  | otherError
deriving Repr, DecidableEq

/-- Embedding of the retry loop body of history_worker lines 336-351
(`for attempt in range(3)` with `max_retries = 3`): success breaks; a 429
before the final attempt sleeps `(attempt + 1) * 2` seconds and retries; a
429 on the final attempt and every other store error re-raise.  The fuel
argument counts the remaining loop iterations; exhausting it is Python's
fall-through of the for loop (a normal return), which cannot be reached
from attempt 0 because the final attempt always breaks or raises.
Returns the performed waits (in seconds, in order) together with the
successful attempt number or the raised error. -/
def persistRetryAux (outcome : Nat → UpsertOutcome) :
    Nat → Nat → List Nat × Except Unit Nat
  | attempt, 0 => ([], .ok attempt)
  | attempt, fuel + 1 =>
    match outcome attempt with
    | .success => ([], .ok attempt)
    | .throttle =>
      if attempt < 3 - 1 then
        let r := persistRetryAux outcome (attempt + 1) fuel
        ((attempt + 1) * 2 :: r.1, r.2)
      else ([], .error ())
    | .otherError => ([], .error ())

/-- The whole retry loop, started at attempt 0 with 3 iterations. -/
def persistRetry (outcome : Nat → UpsertOutcome) : List Nat × Except Unit Nat :=
  persistRetryAux outcome 0 3

/-- The history document upserted by the history worker (lines 322-331). -/
structure HistoryDoc where
  id : String
  sessionId : String
  userId : Option String
  title : String
  createdAt : String
  lastActivity : String
  messages : List StoredMsg
  persistedAt : String
deriving Repr, DecidableEq

/-- Embedding of history_worker `persist_conversation_to_cosmos`
(lines 306-353): a missing sessionId or userId raises ValueError; an
absent title is synthesized by `generate_conversation_title` (whose own
failure cannot raise); the document is built and upserted through the
retry loop.  Returns the waits performed and either the upserted document
or the raised error. -/
def persist_conversation_to_cosmos (conversation_data : Conversation)
    (llmTitle : Except Unit String) (outcome : Nat → UpsertOutcome) (now : String) :
    List Nat × Except Unit HistoryDoc :=
  if conversation_data.sessionId = "" ∨ ¬ truthy conversation_data.userId then
    ([], .error ())
  else
    let title :=
      if truthy conversation_data.title then conversation_data.title.getD ""
      else generate_conversation_title conversation_data llmTitle
    let doc : HistoryDoc :=
      { id := conversation_data.sessionId, sessionId := conversation_data.sessionId
        userId := conversation_data.userId, title := title
        createdAt := conversation_data.createdAt
        lastActivity := conversation_data.lastActivity
        messages := conversation_data.messages, persistedAt := now }
    let r := persistRetry outcome
    (r.1, r.2.map (fun _ => doc))

/-- Oracle inputs of one history-worker message: the cache read (which
re-raises its own errors, history_worker line 303), the title-call
outcome, the per-attempt upsert outcomes and the wall clock. -/
structure HistOracles where
  cacheRead : Except Unit (Option Conversation)
  llmTitle : Except Unit String
  upsertOutcome : Nat → UpsertOutcome
  now : String

/-- Embedding of history_worker `process_message_completed_event`
(lines 356-429): a missing sessionId raises ValueError (line 386); a
failing cache read raises (line 303); a missing cached conversation raises
(line 397); then the document is persisted and any store error
propagates. -/
def process_message_completed_event (body : CompletionEvent) (o : HistOracles) :
    Except Unit (List Nat × HistoryDoc) :=
  if !(truthy body.sessionId) then .error ()
  else
    match o.cacheRead with
    | .error _ => .error ()
    | .ok none => .error ()
    | .ok (some conversation_data) =>
      match persist_conversation_to_cosmos conversation_data o.llmTitle o.upsertOutcome
        o.now with
      | (ws, .ok doc) => .ok (ws, doc)
      | (_, .error _) => .error ()

/-- Embedding of the history worker's `_process_and_handle_message`
(lines 432-471): a body that fails to parse as JSON raises and is
abandoned; a normal return completes; any raised error abandons. -/
def handle_history_message (rawBody : Option CompletionEvent) (o : HistOracles) :
    Settlement :=
  match rawBody with
  | none => Settlement.abandon
  | some body =>
    match process_message_completed_event body o with
    | .ok _ => Settlement.complete
    | .error _ => Settlement.abandon

/-- A cached conversation without a title, used by the title scenarios. -/
def sampleTitleConversation : Conversation :=
  { sessionId := "s1", userId := some "u1", createdAt := "t", lastActivity := "t"
    title := none
    messages :=
      [ { messageId := "m1_user", role := "user", content := "Tell me about hiking"
          timestamp := "t" }
      , { messageId := "m1_assistant", role := "assistant", content := "Sure."
          timestamp := "t" } ] }

end ScalableChat

namespace ScalableChat

lemma cacheWf_update (cached : Option Conversation)
    (hc : ∀ c, cached = some c → CacheWf c)
    (session_id : String) (user_id : Option String)
    (user_message assistant_response chat_message_id : String)
    (system_message : Option String) (t : String) :
    CacheWf (update_conversation_history cached session_id user_id user_message
      assistant_response chat_message_id system_message t) := by
  intro m hm
  unfold update_conversation_history at hm
  cases cached with
  | some conv =>
    simp only [CacheWf] at hc
    simp only [List.mem_append, List.mem_cons, List.mem_singleton] at hm
    rcases hm with h | h | h | h
    · exact hc conv rfl m h
    · subst h
      exact ⟨Or.inr (Or.inl ⟨rfl, chat_message_id, rfl⟩), rfl, rfl⟩
    · subst h
      exact ⟨Or.inr (Or.inr ⟨rfl, chat_message_id, rfl⟩), rfl, rfl⟩
    · cases h
  | none =>
    by_cases hs : truthy system_message
    · simp only [hs, if_true, List.mem_append, List.mem_cons, List.mem_singleton,
        List.not_mem_nil, or_false] at hm
      rcases hm with h | h | h
      · subst h
        exact ⟨Or.inl ⟨rfl, chat_message_id, rfl⟩, rfl, rfl⟩
      · subst h
        exact ⟨Or.inr (Or.inl ⟨rfl, chat_message_id, rfl⟩), rfl, rfl⟩
      · subst h
        exact ⟨Or.inr (Or.inr ⟨rfl, chat_message_id, rfl⟩), rfl, rfl⟩
    · simp only [hs, if_false, Bool.false_eq_true, List.nil_append, List.mem_append,
        List.mem_cons, List.mem_singleton, List.not_mem_nil, or_false, false_or] at hm
      rcases hm with h | h
      · subst h
        exact ⟨Or.inr (Or.inl ⟨rfl, chat_message_id, rfl⟩), rfl, rfl⟩
      · subst h
        exact ⟨Or.inr (Or.inr ⟨rfl, chat_message_id, rfl⟩), rfl, rfl⟩

/-- Claim C10: every message ever written to the cached conversation has
role `system`, `user` or `assistant` with `messageId` equal to the chat
message id suffixed `_system` / `_user` / `_assistant` respectively, and no
reachable cache state contains a tool-role message or a `tool_calls` field:
assistant messages carrying tool calls and tool result messages exist only
in the in-memory LLM request list (llm_worker lines 606-669), which
`update_conversation_history` never stores. -/
theorem persisted_cache_wf (c : Conversation) (h : ReachableCache c) : CacheWf c := by
  induction h with
  | first session_id user_id user_message assistant_response chat_message_id
      system_message t =>
    exact cacheWf_update none (by intro c hc; cases hc) _ _ _ _ _ _ _
  | next c session_id user_id user_message assistant_response chat_message_id
      system_message t h ih =>
    exact cacheWf_update (some c) (by intro c' hc'; cases hc'; exact ih) _ _ _ _ _ _ _

/-- Witness for C10 at a concrete first-turn write. -/
theorem persisted_cache_wf_witness :
    CacheWf (update_conversation_history none "s1" (some "u1") "Hello" "Hi there" "m1"
      (some "sys prompt") "t0") :=
  persisted_cache_wf _
    (ReachableCache.first "s1" (some "u1") "Hello" "Hi there" "m1" (some "sys prompt") "t0")

/-- Claim C4: a cached conversation whose stored `userId` differs from the
request's user id is treated as absent — the history-loading step returns
`[]` (llm_worker lines 301-304), so the message list built for the LLM call
contains only the fresh system prompt and the current user text, and no
message of the cached conversation of another user contributes. -/
theorem cross_user_history_empty (conv : Conversation) (uid : Option String)
    (sys user_text : String) (h : conv.userId ≠ uid) :
    get_conversation_history (some conv) uid = [] ∧
    build_llm_messages (get_conversation_history (some conv) uid) sys user_text =
      [{ role := "system", content := sys }, { role := "user", content := user_text }] := by
  have hempty : get_conversation_history (some conv) uid = [] := by
    simp [get_conversation_history, h]
  refine ⟨hempty, ?_⟩
  rw [hempty]
  rfl

/-- Witness for C4 at a concrete mismatching conversation. -/
theorem cross_user_history_empty_witness :
    get_conversation_history
      (some { sessionId := "s1", userId := some "other", createdAt := "t", lastActivity := "t"
              title := none
              messages := [{ messageId := "m_user", role := "user", content := "secret"
                             timestamp := "t" }] })
      (some "me") = [] :=
  (cross_user_history_empty _ (some "me") "sys" "hi" (by decide)).1

lemma updateEntry_proj (f : FuncCallAcc) (d : ToolCallDelta) :
    (updateEntry f d).index = f.index ∧
    (updateEntry f d).id = (idFrag d).getD f.id ∧
    (updateEntry f d).name = (nameFrag d).getD f.name ∧
    (updateEntry f d).arguments = f.arguments ++ (argFrag d).getD "" := by
  obtain ⟨di, did, dfn⟩ := d
  rcases did with _ | s <;> rcases dfn with _ | ⟨n?, a?⟩
  · simp [updateEntry, updId, idFrag, nameFrag, argFrag]
  · rcases n? with _ | n <;> rcases a? with _ | a <;>
      simp [updateEntry, updId, updName, updArgs, idFrag, nameFrag, argFrag] <;>
      split <;> simp_all
  · by_cases hs : s = "" <;>
      simp [updateEntry, updId, idFrag, nameFrag, argFrag, hs]
  · rcases n? with _ | n <;> rcases a? with _ | a <;>
      by_cases hs : s = "" <;>
      simp [updateEntry, updId, updName, updArgs, idFrag, nameFrag, argFrag, hs] <;>
      (try split) <;> simp_all

lemma updateEntry_index (f : FuncCallAcc) (d : ToolCallDelta) :
    (updateEntry f d).index = f.index := (updateEntry_proj f d).1

lemma find_applyDelta (st : List FuncCallAcc) (d : ToolCallDelta) (i : Nat) :
    (applyDelta st d).find? (fun f => f.index == i) =
      if d.index = i then
        match st.find? (fun f => f.index == i) with
        | some f => some (updateEntry f d)
        | none => some (updateEntry (initEntry i) d)
      else st.find? (fun f => f.index == i) := by
  induction st with
  | nil =>
    by_cases h : d.index = i
    · subst h
      simp [applyDelta, List.find?, updateEntry_index, initEntry]
    · have hb : (d.index == i) = false := by simp [h]
      simp [applyDelta, List.find?, updateEntry_index, initEntry, h, hb]
  | cons f fs ih =>
    by_cases hf : f.index = d.index
    · by_cases h : d.index = i
      · subst h
        simp [applyDelta, hf, List.find?, updateEntry_index]
      · have hb : (d.index == i) = false := by simp [h]
        have hfb : (f.index == i) = false := by simp [hf, h]
        simp [applyDelta, hf, List.find?, updateEntry_index, hb, hfb, h]
    · by_cases hfi : f.index = i
      · have h : ¬ d.index = i := fun hdi => hf (hfi.trans hdi.symm)
        have hfb : (f.index == i) = true := by simp [hfi]
        simp [applyDelta, hf, List.find?, hfb, h]
      · have hcons : List.find? (fun g => g.index == i) (f :: fs) =
            List.find? (fun g => g.index == i) fs :=
          List.find?_cons_of_neg _ (by simp [hfi])
        simp only [applyDelta, if_neg hf]
        rw [List.find?_cons_of_neg _ (by simp [hfi]), ih, hcons]

lemma find_foldl_applyDelta (ds : List ToolCallDelta) (st : List FuncCallAcc) (i : Nat) :
    (ds.foldl applyDelta st).find? (fun f => f.index == i) =
      match st.find? (fun f => f.index == i) with
      | some f => some (ds.foldl (stepFor i) f)
      | none =>
        if ds.any (fun d => d.index == i) then some (ds.foldl (stepFor i) (initEntry i))
        else none := by
  induction ds generalizing st with
  | nil =>
    cases h : st.find? (fun f => f.index == i) <;> simp [h]
  | cons d ds ih =>
    rw [List.foldl_cons, ih]
    rw [find_applyDelta]
    by_cases h : d.index = i
    · cases hst : st.find? (fun f => f.index == i) with
      | some f => simp [h, hst, stepFor]
      | none => simp [h, hst, stepFor]
    · have hb : (d.index == i) = false := by simp [h]
      cases hst : st.find? (fun f => f.index == i) with
      | some f => simp [h, hst, stepFor, hb]
      | none => simp [h, hst, stepFor, hb]

lemma filterMap_filter_cons_eq (i : Nat) (g : ToolCallDelta → Option String)
    (d : ToolCallDelta) (ds : List ToolCallDelta) (h : d.index = i) :
    ((d :: ds).filter (fun x => x.index = i)).filterMap g =
      match g d with
      | some s => s :: (ds.filter (fun x => x.index = i)).filterMap g
      | none => (ds.filter (fun x => x.index = i)).filterMap g := by
  have hf : (d :: ds).filter (fun x => decide (x.index = i)) =
      d :: ds.filter (fun x => decide (x.index = i)) := by
    simp [List.filter_cons, h]
  rw [hf, List.filterMap_cons]
  cases g d <;> rfl

lemma filterMap_filter_cons_ne (i : Nat) (g : ToolCallDelta → Option String)
    (d : ToolCallDelta) (ds : List ToolCallDelta) (h : ¬ d.index = i) :
    ((d :: ds).filter (fun x => x.index = i)).filterMap g =
      (ds.filter (fun x => x.index = i)).filterMap g := by
  rw [List.filter_cons]
  simp [h]

lemma idFragments_cons_eq (i : Nat) (d : ToolCallDelta) (ds : List ToolCallDelta)
    (h : d.index = i) :
    idFragments i (d :: ds) =
      match idFrag d with
      | some s => s :: idFragments i ds
      | none => idFragments i ds :=
  filterMap_filter_cons_eq i idFrag d ds h

lemma nameFragments_cons_eq (i : Nat) (d : ToolCallDelta) (ds : List ToolCallDelta)
    (h : d.index = i) :
    nameFragments i (d :: ds) =
      match nameFrag d with
      | some s => s :: nameFragments i ds
      | none => nameFragments i ds :=
  filterMap_filter_cons_eq i nameFrag d ds h

lemma argFragments_cons_eq (i : Nat) (d : ToolCallDelta) (ds : List ToolCallDelta)
    (h : d.index = i) :
    argFragments i (d :: ds) =
      match argFrag d with
      | some s => s :: argFragments i ds
      | none => argFragments i ds :=
  filterMap_filter_cons_eq i argFrag d ds h

lemma lastOr_cons (dflt s : String) (l : List String) :
    lastOr dflt (s :: l) = lastOr s l := rfl

lemma foldl_stepFor_spec (i : Nat) (ds : List ToolCallDelta) :
    ∀ f : FuncCallAcc, f.index = i →
      ds.foldl (stepFor i) f =
        { id := lastOr f.id (idFragments i ds), index := i
          name := lastOr f.name (nameFragments i ds)
          arguments := f.arguments ++ strConcat (argFragments i ds) } := by
  induction ds with
  | nil =>
    intro f hf
    simp [idFragments, nameFragments, argFragments, lastOr, strConcat,
      String.append_empty, ← hf]
  | cons d ds ih =>
    intro f hf
    by_cases h : d.index = i
    · have hstep : stepFor i f d = updateEntry f d := by simp [stepFor, h]
      obtain ⟨hidx, hid, hname, hargs⟩ := updateEntry_proj f d
      rw [List.foldl_cons, hstep, ih _ (hidx.trans hf),
        idFragments_cons_eq i d ds h, nameFragments_cons_eq i d ds h,
        argFragments_cons_eq i d ds h]
      simp only [FuncCallAcc.mk.injEq]
      refine ⟨?_, by trivial, ?_, ?_⟩
      · cases hfr : idFrag d <;> simp [hfr, lastOr_cons, hid]
      · cases hfr : nameFrag d <;> simp [hfr, lastOr_cons, hname]
      · cases hfr : argFrag d <;>
          simp [hfr, hargs, strConcat, String.append_empty, String.append_assoc]
    · have hstep : stepFor i f d = f := by simp [stepFor, h]
      rw [List.foldl_cons, hstep, ih _ hf]
      unfold idFragments nameFragments argFragments
      rw [filterMap_filter_cons_ne i idFrag d ds h,
        filterMap_filter_cons_ne i nameFrag d ds h,
        filterMap_filter_cons_ne i argFrag d ds h]

/-- Claim C5: reassembly of streaming tool-call deltas is keyed by
tool-call index.  For every index appearing in the stream, the
reconstructed call carries the last name and last id that arrived for that
index (so an id arriving in any later delta is attached) and the
concatenation in arrival order of its argument fragments; indices never
seen are absent.  A call whose id is still empty after the stream receives
the synthesized id `call_index_{index}` in the assistant message; a call
whose name is empty is dropped from the assistant `tool_calls` message and
is never executed. -/
theorem tool_call_reassembly (ds : List ToolCallDelta) (i : Nat) :
    (ds.any (fun d => d.index == i) = true →
      (reassemble ds).find? (fun f => f.index == i) = some (specCallAt i ds)) ∧
    (ds.any (fun d => d.index == i) = false →
      (reassemble ds).find? (fun f => f.index == i) = none) ∧
    (∀ f ∈ reassemble ds, ¬(f.name = "" ∨ pyStrip f.name = "") →
      ({ id := if f.id = "" ∨ pyStrip f.id = "" then "call_index_" ++ toString f.index else f.id
         name := f.name
         arguments := if f.arguments = "" then "\x7b\x7d" else f.arguments } : ToolCallRec) ∈
        finalToolCalls ds) ∧
    (∀ c ∈ finalToolCalls ds, ¬(c.name = "" ∨ pyStrip c.name = "")) ∧
    (∀ f ∈ executedCalls ((reassemble ds).map postProcessId),
      f.name = "search_conversation_history") := by
  refine ⟨?_, ?_, ?_, ?_, ?_⟩
  · intro h
    have hfind := find_foldl_applyDelta ds [] i
    simp only [List.find?_nil, h, if_true] at hfind
    rw [reassemble, hfind, foldl_stepFor_spec i ds (initEntry i) rfl]
    simp [specCallAt, initEntry, String.empty_append]
  · intro h
    have hfind := find_foldl_applyDelta ds [] i
    simp only [List.find?_nil, h, if_false, Bool.false_eq_true] at hfind
    rw [reassemble, hfind]
  · intro f hf hname
    refine List.mem_filterMap.mpr ⟨postProcessId f, List.mem_map.mpr ⟨f, hf, rfl⟩, ?_⟩
    unfold postProcessId
    by_cases hid : f.id = "" ∨ pyStrip f.id = ""
    · simp only [hid, if_true]
      simp [hname]
    · simp only [hid, if_false]
      simp [hname]
  · intro c hc
    obtain ⟨f, _, hsome⟩ := List.mem_filterMap.mp hc
    by_cases hname : f.name = "" ∨ pyStrip f.name = ""
    · simp [hname] at hsome
    · simp only [hname, if_false, Option.some.injEq] at hsome
      subst hsome
      simpa using hname
  · intro f hf
    have hcond := List.of_mem_filter hf
    simp only [Bool.and_eq_true, beq_iff_eq] at hcond
    exact hcond.2

/-- Witness for C5 on `sampleDeltaStream`: the fragmented call at index 0
is reconstructed as the spec describes, and the id-less call at index 2
appears with the synthesized id. -/
theorem tool_call_reassembly_witness :
    (reassemble sampleDeltaStream).find? (fun f => f.index == 0) =
        some (specCallAt 0 sampleDeltaStream) ∧
    ({ id := "call_index_2", name := "search_conversation_history", arguments := "q=x" } :
        ToolCallRec) ∈ finalToolCalls sampleDeltaStream :=
  ⟨(tool_call_reassembly sampleDeltaStream 0).1 (by decide),
   by
    have h := (tool_call_reassembly sampleDeltaStream 2).2.2.1
      (specCallAt 2 sampleDeltaStream) (by decide) (by decide)
    simpa using h⟩

lemma sendTokenEvents_ok (sendOk : Nat → Bool) (toks : List String) :
    ∀ n, (∀ k, k < toks.length → sendOk (n + k) = true) →
      sendTokenEvents sendOk n toks = .ok (n + toks.length) := by
  induction toks with
  | nil =>
    intro n h
    simp [sendTokenEvents]
  | cons t rest ih =>
    intro n h
    have h0 : sendOk n = true := by simpa using h 0 (by simp)
    have heq : sendTokenEvents sendOk n (t :: rest) =
        if sendOk n then sendTokenEvents sendOk (n + 1) rest else .error .busSend := rfl
    rw [heq, if_pos h0]
    have hrest : ∀ k, k < rest.length → sendOk (n + 1 + k) = true := by
      intro k hk
      have := h (k + 1) (by simpa using Nat.succ_lt_succ hk)
      simpa [show n + (k + 1) = n + 1 + k by omega] using this
    rw [ih (n + 1) hrest]
    congr 1
    simp [List.length_cons]
    omega

lemma sendTokenEvents_fail_head (sendOk : Nat → Bool) (n : Nat) (t : String)
    (rest : List String) (h : sendOk n = false) :
    sendTokenEvents sendOk n (t :: rest) = .error .busSend := by
  have heq : sendTokenEvents sendOk n (t :: rest) =
      if sendOk n then sendTokenEvents sendOk (n + 1) rest else .error .busSend := rfl
  rw [heq, if_neg (by simp [h])]

lemma sendTokenEvents_fail (sendOk : Nat → Bool) (toks : List String) :
    ∀ start, (∃ k, k < toks.length ∧ sendOk (start + k) = false) →
      sendTokenEvents sendOk start toks = .error .busSend := by
  induction toks with
  | nil =>
    rintro start ⟨k, hk, _⟩
    simp at hk
  | cons t rest ih =>
    rintro start ⟨k, hk, hf⟩
    cases hs : sendOk start with
    | false => exact sendTokenEvents_fail_head sendOk start t rest hs
    | true =>
      have heq : sendTokenEvents sendOk start (t :: rest) =
          if sendOk start then sendTokenEvents sendOk (start + 1) rest
          else .error .busSend := rfl
      rw [heq, if_pos (by simp [hs])]
      cases k with
      | zero =>
        rw [Nat.add_zero] at hf
        rw [hs] at hf
        cases hf
      | succ j =>
        refine ih (start + 1) ⟨j, ?_, ?_⟩
        · simpa using Nat.lt_of_succ_lt_succ hk
        · simpa [show start + 1 + j = start + (j + 1) by omega] using hf

/-- Claim C1 counterexample: with a valid request and every token-streams
send succeeding, a failing message-completed publish is swallowed inside
`publish_message_completed_event` (llm_worker lines 422-424) and the
user-messages bus message is completed, not abandoned — the Completion
half of the claim is false on the code. -/
theorem llm_completed_publish_failure_counterexample :
    ∃ eff, handle_llm_message (some sampleRequest) sampleOraclesCompletedFail =
        (Settlement.complete, some eff) ∧ eff.completedPublished = false ∧
        eff.eosSent = true := by
  refine ⟨_, rfl, rfl, rfl⟩

/-- Claim C1 amended: a failure of any send on token-streams — a Token
event at any position or the end-of-stream sentinel, the sends numbered 0
up to and including index `(llmTurnTokens o).length` — raises out of
`process_message` and the bus message is abandoned for redelivery; but a
failure to publish the Completion event on message-completed is caught and
logged inside `publish_message_completed_event`, so the turn still
succeeds and the bus message is completed, with no Completion event
published. -/
theorem llm_bus_publish_failure (req : ChatRequest) (o : LlmOracles)
    (hv : validRequest req = true) :
    ((∃ n, n ≤ (llmTurnTokens o).length ∧ o.sendOk n = false) →
        handle_llm_message (some req) o = (Settlement.abandon, none)) ∧
    ((∀ k, o.sendOk k = true) →
        ∃ eff, handle_llm_message (some req) o = (Settlement.complete, some eff) ∧
          eff.eosSent = true ∧ eff.completedPublished = o.completedSendOk) := by
  constructor
  · rintro ⟨n, hn, hfail⟩
    unfold handle_llm_message process_message
    simp only [hv, Bool.not_true, Bool.false_eq_true, if_false]
    rcases Nat.lt_or_ge n (llmTurnTokens o).length with hlt | hge
    · rw [sendTokenEvents_fail o.sendOk (llmTurnTokens o) 0
        ⟨n, hlt, by simpa using hfail⟩]
    · have hlen : n = (llmTurnTokens o).length := Nat.le_antisymm hn hge
      by_cases hall : ∀ k, k < (llmTurnTokens o).length → o.sendOk k = true
      · rw [sendTokenEvents_ok o.sendOk (llmTurnTokens o) 0
          (fun k hk => by simpa using hall k hk)]
        rw [hlen] at hfail
        simp [hfail]
      · push_neg at hall
        obtain ⟨k, hk, hkf⟩ := hall
        rw [sendTokenEvents_fail o.sendOk (llmTurnTokens o) 0
          ⟨k, hk, by simpa using hkf⟩]
  · intro hall
    unfold handle_llm_message process_message
    simp only [hv, Bool.not_true, Bool.false_eq_true, if_false]
    rw [sendTokenEvents_ok o.sendOk (llmTurnTokens o) 0 (fun k _ => hall (0 + k))]
    simp only [hall]
    exact ⟨_, rfl, rfl, rfl⟩

/-- Witness for the amended C1: a failing intermediate Token send (the
second of three) abandons the message, and an all-sends-succeed run with a
failing Completion publish still completes. -/
theorem llm_bus_publish_failure_witness :
    handle_llm_message (some sampleRequest) sampleOraclesTokenFail =
        (Settlement.abandon, none) ∧
    ∃ eff, handle_llm_message (some sampleRequest) sampleOraclesCompletedFail =
        (Settlement.complete, some eff) ∧ eff.eosSent = true ∧
        eff.completedPublished = sampleOraclesCompletedFail.completedSendOk :=
  ⟨(llm_bus_publish_failure sampleRequest sampleOraclesTokenFail (by decide)).1
      ⟨1, by decide, by decide⟩,
   (llm_bus_publish_failure sampleRequest sampleOraclesCompletedFail (by decide)).2
      (fun k => rfl)⟩

/-- Claim C3 counterexample: a Chat Request with missing `text` makes
`process_message` return at llm_worker line 443 before any bus send: the
bus message is completed, but no `end_of_stream` token event (and no other
event) is emitted, contrary to the claim. -/
theorem llm_missing_field_counterexample :
    ∃ eff, handle_llm_message (some sampleRequestNoText) sampleOraclesCompletedFail =
        (Settlement.complete, some eff) ∧ eff.eosSent = false ∧ eff.tokens = [] := by
  refine ⟨_, rfl, rfl, rfl⟩

/-- Claim C3 amended: a received Chat Request in which any of text,
sessionId, chatMessageId is missing or empty is a terminal failure for
that message: `process_message` returns immediately, the bus message is
completed (not abandoned or redelivered), and there are no side effects at
all — in particular no `end_of_stream` token event is emitted. -/
theorem llm_missing_field_terminal (req : ChatRequest) (o : LlmOracles)
    (hv : validRequest req = false) :
    handle_llm_message (some req) o =
      (Settlement.complete,
       some { tokens := [], eosSent := false, cacheAfter := o.cached
              completedPublished := false }) := by
  unfold handle_llm_message process_message
  simp [hv]

/-- Witness for the amended C3 at the concrete missing-text request. -/
theorem llm_missing_field_terminal_witness :
    handle_llm_message (some sampleRequestNoText) sampleOraclesCompletedFail =
      (Settlement.complete,
       some { tokens := [], eosSent := false, cacheAfter := none
              completedPublished := false }) :=
  llm_missing_field_terminal sampleRequestNoText sampleOraclesCompletedFail (by decide)

lemma tokens_mkTokenEvents (s c : String) (toks : List String) :
    (mkTokenEvents s c toks).map (fun e => e.token) = toks := by
  simp [mkTokenEvents, List.map_map, Function.comp_def]

/-- Claim C9: on a successfully processed turn (all token-streams sends
succeed and the cache write succeeds), the assistant message persisted to
the cache has content equal to the concatenation, in publish order, of the
token fields of all Token events published on token-streams for that
chatMessageId — across the first streaming call and any follow-up call
after tool execution — excluding the end-of-stream sentinel. -/
theorem persisted_equals_streamed (req : ChatRequest) (o : LlmOracles)
    (hv : validRequest req = true)
    (hsend : ∀ k, o.sendOk k = true) (hw : o.cacheWriteOk = true) :
    ∃ eff conv,
      process_message (some req) o = .ok eff ∧
      eff.cacheAfter = some conv ∧
      eff.tokens = mkTokenEvents (req.sessionId.getD "") (req.chatMessageId.getD "")
        (llmTurnTokens o) ∧
      eff.eosSent = true ∧
      conv.messages.getLast? = some
        { messageId := req.chatMessageId.getD "" ++ "_assistant", role := "assistant"
          content := strConcat (eff.tokens.map (fun e => e.token)), timestamp := o.now } := by
  unfold process_message
  simp only [hv, Bool.not_true, Bool.false_eq_true, if_false]
  rw [sendTokenEvents_ok o.sendOk (llmTurnTokens o) 0 (fun k _ => hsend (0 + k))]
  simp only [hsend, hw, if_true]
  refine ⟨_, _, rfl, rfl, rfl, rfl, ?_⟩
  rw [tokens_mkTokenEvents]
  unfold update_conversation_history
  simp

/-- Witness for C9 on the concrete tool-round run: the persisted content
spans both streaming calls. -/
theorem persisted_equals_streamed_witness :
    ∃ eff conv,
      process_message (some sampleRequest) sampleOraclesToolRound = .ok eff ∧
      eff.cacheAfter = some conv ∧
      eff.tokens = mkTokenEvents (sampleRequest.sessionId.getD "")
        (sampleRequest.chatMessageId.getD "") (llmTurnTokens sampleOraclesToolRound) ∧
      eff.eosSent = true ∧
      conv.messages.getLast? = some
        { messageId := sampleRequest.chatMessageId.getD "" ++ "_assistant"
          role := "assistant"
          content := strConcat (eff.tokens.map (fun e => e.token))
          timestamp := sampleOraclesToolRound.now } :=
  persisted_equals_streamed sampleRequest sampleOraclesToolRound (by decide)
    (fun k => rfl) rfl

/-- Claim C2 counterexample: a Completion event whose session has no
cached conversation makes `process_completed_message` return normally
(memory_worker lines 648-652), so the bus message is completed, not
abandoned; and even with the cache present, failing conversation-memory
and user-memory upserts are caught inside their own functions
(lines 490-491 and 551-552) and the message is still completed. -/
theorem memory_failure_completes_counterexample :
    handle_memory_message (some sampleCompletionEvent) sampleMemOraclesMissingCache =
      (Settlement.complete,
       some { convMemoryWritten := none, userMemoryWritten := none }) ∧
    (handle_memory_message (some sampleCompletionEvent) sampleMemOraclesUpsertFail).1 =
      Settlement.complete :=
  ⟨rfl, rfl⟩

/-- Claim C2 amended: in the Memory Worker, every failure inside steps 2-8
is swallowed in place — a missing cached conversation returns with no side
effects, and failing conversation-memory or user-memory upserts are caught
inside their own functions — so the bus message is completed whenever its
body parses as JSON; only a body that fails to parse is abandoned for
redelivery. -/
theorem memory_worker_settlement (body : CompletionEvent) (o : MemOracles) :
    handle_memory_message (some body) o =
      (Settlement.complete, some (process_completed_message body o)) ∧
    (o.cached = none →
      process_completed_message body o =
        { convMemoryWritten := none, userMemoryWritten := none }) ∧
    handle_memory_message none o = (Settlement.abandon, none) := by
  refine ⟨rfl, ?_, rfl⟩
  intro hc
  unfold process_completed_message
  rw [hc]
  cases h : (truthy body.sessionId && truthy body.userId) <;> simp [h]

/-- Witness for the amended C2 at the concrete missing-cache run. -/
theorem memory_worker_settlement_witness :
    process_completed_message sampleCompletionEvent sampleMemOraclesMissingCache =
      { convMemoryWritten := none, userMemoryWritten := none } :=
  (memory_worker_settlement sampleCompletionEvent sampleMemOraclesMissingCache).2.1 rfl

lemma keepNonEmpty_getD (l dflt : List String) :
    (keepNonEmpty l).getD dflt = if l.isEmpty then dflt else l := by
  by_cases h : l.isEmpty <;> simp [keepNonEmpty, h]

/-- Claim C6: for each of the nine user-memory array fields, when the
memory-extraction step returns a non-empty array for that field the stored
document's field after the update equals the returned array exactly (full
replacement, not a union with the previous value); every field returned
empty keeps its previous stored value unchanged; the timestamp is
refreshed. -/
theorem user_memory_replacement (existing : UserMemoryDoc) (user_id now : String)
    (raw : UserMemoryUpdatesRaw)
    (h : updatesNonEmpty (filterMemoryUpdates raw) = true) :
    ∃ doc, update_user_memory (some existing) user_id (filterMemoryUpdates raw) now =
        some doc ∧
      doc.output_preferences =
        (if raw.output_preferences.isEmpty then existing.output_preferences
         else raw.output_preferences) ∧
      doc.personal_preferences =
        (if raw.personal_preferences.isEmpty then existing.personal_preferences
         else raw.personal_preferences) ∧
      doc.assistant_preferences =
        (if raw.assistant_preferences.isEmpty then existing.assistant_preferences
         else raw.assistant_preferences) ∧
      doc.knowledge = (if raw.knowledge.isEmpty then existing.knowledge else raw.knowledge) ∧
      doc.interests = (if raw.interests.isEmpty then existing.interests else raw.interests) ∧
      doc.dislikes = (if raw.dislikes.isEmpty then existing.dislikes else raw.dislikes) ∧
      doc.family_and_friends =
        (if raw.family_and_friends.isEmpty then existing.family_and_friends
         else raw.family_and_friends) ∧
      doc.work_profile =
        (if raw.work_profile.isEmpty then existing.work_profile else raw.work_profile) ∧
      doc.goals = (if raw.goals.isEmpty then existing.goals else raw.goals) ∧
      doc.timestamp = now := by
  unfold update_user_memory
  rw [h]
  simp only [Bool.not_true, Bool.false_eq_true, if_false, Option.getD_some]
  exact ⟨_, rfl, keepNonEmpty_getD _ _, keepNonEmpty_getD _ _, keepNonEmpty_getD _ _,
    keepNonEmpty_getD _ _, keepNonEmpty_getD _ _, keepNonEmpty_getD _ _,
    keepNonEmpty_getD _ _, keepNonEmpty_getD _ _, keepNonEmpty_getD _ _, rfl⟩

/-- Witness for C6 at a concrete document and extraction result: the
interests field is replaced, not merged, and untouched fields survive. -/
theorem user_memory_replacement_witness :
    ∃ doc, update_user_memory (some sampleExistingUserMemory) "u1"
        (filterMemoryUpdates sampleRawUpdates) "t9" = some doc ∧
      doc.output_preferences =
        (if sampleRawUpdates.output_preferences.isEmpty then
          sampleExistingUserMemory.output_preferences
         else sampleRawUpdates.output_preferences) ∧
      doc.personal_preferences =
        (if sampleRawUpdates.personal_preferences.isEmpty then
          sampleExistingUserMemory.personal_preferences
         else sampleRawUpdates.personal_preferences) ∧
      doc.assistant_preferences =
        (if sampleRawUpdates.assistant_preferences.isEmpty then
          sampleExistingUserMemory.assistant_preferences
         else sampleRawUpdates.assistant_preferences) ∧
      doc.knowledge =
        (if sampleRawUpdates.knowledge.isEmpty then sampleExistingUserMemory.knowledge
         else sampleRawUpdates.knowledge) ∧
      doc.interests =
        (if sampleRawUpdates.interests.isEmpty then sampleExistingUserMemory.interests
         else sampleRawUpdates.interests) ∧
      doc.dislikes =
        (if sampleRawUpdates.dislikes.isEmpty then sampleExistingUserMemory.dislikes
         else sampleRawUpdates.dislikes) ∧
      doc.family_and_friends =
        (if sampleRawUpdates.family_and_friends.isEmpty then
          sampleExistingUserMemory.family_and_friends
         else sampleRawUpdates.family_and_friends) ∧
      doc.work_profile =
        (if sampleRawUpdates.work_profile.isEmpty then sampleExistingUserMemory.work_profile
         else sampleRawUpdates.work_profile) ∧
      doc.goals =
        (if sampleRawUpdates.goals.isEmpty then sampleExistingUserMemory.goals
         else sampleRawUpdates.goals) ∧
      doc.timestamp = "t9" :=
  user_memory_replacement sampleExistingUserMemory "u1" "t9" sampleRawUpdates (by decide)

lemma pyStrip_subset (s : String) : ∀ c ∈ (pyStrip s).data, c ∈ s.data := by
  intro c hc
  have hc' : c ∈ ((s.data.dropWhile Char.isWhitespace).reverse.dropWhile
      Char.isWhitespace).reverse := hc
  rw [List.mem_reverse] at hc'
  have h1 : c ∈ (s.data.dropWhile Char.isWhitespace).reverse :=
    (List.dropWhile_sublist _).subset hc'
  rw [List.mem_reverse] at h1
  exact (List.dropWhile_sublist _).subset h1

lemma pyStrip_length_le (s : String) : (pyStrip s).length ≤ s.length := by
  show ((s.data.dropWhile Char.isWhitespace).reverse.dropWhile
      Char.isWhitespace).reverse.length ≤ s.data.length
  rw [List.length_reverse]
  calc ((s.data.dropWhile Char.isWhitespace).reverse.dropWhile Char.isWhitespace).length
      ≤ (s.data.dropWhile Char.isWhitespace).reverse.length :=
        (List.dropWhile_sublist _).length_le
    _ = (s.data.dropWhile Char.isWhitespace).length := List.length_reverse _
    _ ≤ s.data.length := (List.dropWhile_sublist _).length_le

lemma pyTake_subset (s : String) (n : Nat) : ∀ c ∈ (pyTake s n).data, c ∈ s.data := by
  intro c hc
  exact List.take_subset n s.data hc

lemma pyTake_length_le (s : String) (n : Nat) : (pyTake s n).length ≤ n := by
  show (s.data.take n).length ≤ n
  simp [List.length_take]

lemma removeChar_subset (c : Char) (s : String) :
    ∀ x ∈ (removeChar c s).data, x ∈ s.data := by
  intro x hx
  exact List.filter_subset' _ hx

lemma removeChar_ne (c : Char) (s : String) : ∀ x ∈ (removeChar c s).data, x ≠ c := by
  intro x hx
  have := List.of_mem_filter hx
  simpa using this

lemma stripTitleChars_good (s : String) :
    ∀ c ∈ (stripTitleChars s).data,
      c ≠ doubleQuoteChar ∧ c ≠ singleQuoteChar ∧ c ≠ ':' := by
  intro c hc
  have hcColon : c ≠ ':' := removeChar_ne ':' _ c hc
  have hc2 : c ∈ (removeChar singleQuoteChar (removeChar doubleQuoteChar s)).data :=
    removeChar_subset ':' _ c hc
  have hcSq : c ≠ singleQuoteChar := removeChar_ne singleQuoteChar _ c hc2
  have hc3 : c ∈ (removeChar doubleQuoteChar s).data := removeChar_subset _ _ c hc2
  have hcDq : c ≠ doubleQuoteChar := removeChar_ne _ _ c hc3
  exact ⟨hcDq, hcSq, hcColon⟩

lemma newConversation_good :
    (∀ c ∈ ("New Conversation" : String).data,
      c ≠ doubleQuoteChar ∧ c ≠ singleQuoteChar ∧ c ≠ ':') ∧
    ("New Conversation" : String).length ≤ 50 := by
  decide

lemma cleanupTitle_good (content : String) :
    (∀ c ∈ (cleanupTitle content).data,
      c ≠ doubleQuoteChar ∧ c ≠ singleQuoteChar ∧ c ≠ ':') ∧
    (cleanupTitle content).length ≤ 50 := by
  unfold cleanupTitle
  by_cases hz : capTitle (stripTitleChars (pyStrip content)) = ""
  · rw [if_pos hz]
    exact newConversation_good
  · rw [if_neg hz]
    constructor
    · intro c hc
      unfold capTitle at hc
      by_cases hlen : (stripTitleChars (pyStrip content)).length > 50
      · rw [if_pos hlen] at hc
        have hc2 : c ∈ (pyTake (stripTitleChars (pyStrip content)) 50).data :=
          pyStrip_subset _ c hc
        have hc3 : c ∈ (stripTitleChars (pyStrip content)).data :=
          pyTake_subset _ 50 c hc2
        exact stripTitleChars_good _ c hc3
      · rw [if_neg hlen] at hc
        exact stripTitleChars_good _ c hc
    · unfold capTitle
      by_cases hlen : (stripTitleChars (pyStrip content)).length > 50
      · rw [if_pos hlen]
        exact le_trans (pyStrip_length_le _) (pyTake_length_le _ 50)
      · rw [if_neg hlen]
        omega

lemma generate_title_cases (conv : Conversation) (llm : Except Unit String)
    (ht : truthy conv.title = false) :
    generate_conversation_title conv llm = "New Conversation" ∨
    ∃ content, llm = .ok content ∧
      generate_conversation_title conv llm = cleanupTitle content := by
  unfold generate_conversation_title
  by_cases h1 : conv.messages.isEmpty
  · left
    simp [h1]
  · simp only [h1, Bool.false_eq_true, if_false, ht]
    by_cases h2 : ((conv.messages.take 6).filterMap (fun m =>
        if m.role = "user" then some ("User: " ++ pyTake m.content 150)
        else if m.role = "assistant" then some ("Assistant: " ++ pyTake m.content 150)
        else none)).isEmpty
    · left
      simp [h2]
    · simp only [h2, Bool.false_eq_true, if_false]
      cases llm with
      | error e => left; rfl
      | ok content => right; exact ⟨content, rfl, rfl⟩

/-- Claim C7: every title produced by title synthesis (which runs only for
conversations whose cached title is absent) contains no double-quote,
single-quote or colon characters and has length at most 50; an erroring
title call yields exactly "New Conversation", and so does an LLM title
that is empty after cleanup (history_worker lines 272-273); and a failing
title generation does not prevent the history document upsert, which still
succeeds and stores the fallback title. -/
theorem title_bounds (conversation_data : Conversation) (llm : Except Unit String)
    (ht : truthy conversation_data.title = false) :
    (∀ c ∈ (generate_conversation_title conversation_data llm).data,
        c ≠ doubleQuoteChar ∧ c ≠ singleQuoteChar ∧ c ≠ ':') ∧
    (generate_conversation_title conversation_data llm).length ≤ 50 ∧
    generate_conversation_title conversation_data (.error ()) = "New Conversation" ∧
    (∀ content, capTitle (stripTitleChars (pyStrip content)) = "" →
      generate_conversation_title conversation_data (.ok content) = "New Conversation") ∧
    (∀ (outcome : Nat → UpsertOutcome) (now : String),
      conversation_data.sessionId ≠ "" → truthy conversation_data.userId = true →
      outcome 0 = UpsertOutcome.success →
      persist_conversation_to_cosmos conversation_data (.error ()) outcome now =
        ([], .ok { id := conversation_data.sessionId
                   sessionId := conversation_data.sessionId
                   userId := conversation_data.userId
                   title := "New Conversation"
                   createdAt := conversation_data.createdAt
                   lastActivity := conversation_data.lastActivity
                   messages := conversation_data.messages
                   persistedAt := now })) := by
  have herr : generate_conversation_title conversation_data (.error ()) =
      "New Conversation" := by
    rcases generate_title_cases conversation_data (.error ()) ht with h | ⟨c, hc, _⟩
    · exact h
    · cases hc
  refine ⟨?_, ?_, herr, ?_, ?_⟩
  · rcases generate_title_cases conversation_data llm ht with h | ⟨c, hc, h⟩
    · rw [h]; exact newConversation_good.1
    · rw [h]; exact (cleanupTitle_good c).1
  · rcases generate_title_cases conversation_data llm ht with h | ⟨c, hc, h⟩
    · rw [h]; exact newConversation_good.2
    · rw [h]; exact (cleanupTitle_good c).2
  · intro content hemp
    rcases generate_title_cases conversation_data (.ok content) ht with h | ⟨c, hc, h⟩
    · exact h
    · rw [h]
      cases hc
      unfold cleanupTitle
      rw [if_pos hemp]
  · intro outcome now hs hu hout
    unfold persist_conversation_to_cosmos
    rw [if_neg (by simp [hs, hu])]
    have hretry : persistRetry outcome = ([], .ok 0) := by
      simp [persistRetry, persistRetryAux, hout]
    simp only [ht, Bool.false_eq_true, if_false, herr, hretry]
    rfl

/-- Witness for C7: on a concrete title-less conversation, an LLM title of
"::" that is empty after cleanup yields exactly "New Conversation", and a
failing title call still yields a successful upsert storing the
fallback. -/
theorem title_bounds_witness :
    generate_conversation_title sampleTitleConversation (.ok "::") = "New Conversation" ∧
    persist_conversation_to_cosmos sampleTitleConversation (.error ())
        (fun _ => UpsertOutcome.success) "t5" =
      ([], .ok { id := "s1", sessionId := "s1", userId := some "u1"
                 title := "New Conversation", createdAt := "t", lastActivity := "t"
                 messages := sampleTitleConversation.messages, persistedAt := "t5" }) :=
  ⟨(title_bounds sampleTitleConversation (.ok "::") (by decide)).2.2.2.1 "::" (by decide),
   (title_bounds sampleTitleConversation (.ok "ignored") (by decide)).2.2.2.2
    (fun _ => UpsertOutcome.success) "t5" (by decide) (by decide) rfl⟩

/-- Claim C8 counterexample: when every attempt is throttled, the three
attempts are separated by waits of 2 s and 4 s only — the claimed third
wait of 6 s never occurs, because the loop raises on the third throttled
attempt instead of sleeping again. -/
theorem history_retry_waits_counterexample :
    persistRetry (fun _ => UpsertOutcome.throttle) = ([2, 4], .error ()) ∧
    6 ∉ (persistRetry (fun _ => UpsertOutcome.throttle)).1 :=
  ⟨rfl, by decide⟩

/-- Claim C8 amended: on document-store throttling the upsert is retried
up to 3 attempts in total, with waits of 2 s and then 4 s between
successive attempts; a throttle on the final attempt, and any
non-throttling store error, is raised immediately, and a raised persist
error makes the history worker abandon the bus message for redelivery. -/
theorem history_store_retry (outcome : Nat → UpsertOutcome) :
    (outcome 0 = UpsertOutcome.success → persistRetry outcome = ([], .ok 0)) ∧
    (outcome 0 = UpsertOutcome.throttle → outcome 1 = UpsertOutcome.success →
      persistRetry outcome = ([2], .ok 1)) ∧
    (outcome 0 = UpsertOutcome.throttle → outcome 1 = UpsertOutcome.throttle →
      outcome 2 = UpsertOutcome.success → persistRetry outcome = ([2, 4], .ok 2)) ∧
    (outcome 0 = UpsertOutcome.throttle → outcome 1 = UpsertOutcome.throttle →
      outcome 2 = UpsertOutcome.throttle → persistRetry outcome = ([2, 4], .error ())) ∧
    (outcome 0 = UpsertOutcome.otherError → persistRetry outcome = ([], .error ())) ∧
    (outcome 0 = UpsertOutcome.throttle → outcome 1 = UpsertOutcome.otherError →
      persistRetry outcome = ([2], .error ())) ∧
    (∀ (body : CompletionEvent) (o : HistOracles) (conv : Conversation),
      truthy body.sessionId = true → o.cacheRead = .ok (some conv) →
      (persist_conversation_to_cosmos conv o.llmTitle o.upsertOutcome o.now).2 =
        .error () →
      handle_history_message (some body) o = Settlement.abandon) := by
  refine ⟨?_, ?_, ?_, ?_, ?_, ?_, ?_⟩
  · intro h0
    simp [persistRetry, persistRetryAux, h0]
  · intro h0 h1
    simp [persistRetry, persistRetryAux, h0, h1]
  · intro h0 h1 h2
    simp [persistRetry, persistRetryAux, h0, h1, h2]
  · intro h0 h1 h2
    simp [persistRetry, persistRetryAux, h0, h1, h2]
  · intro h0
    simp [persistRetry, persistRetryAux, h0]
  · intro h0 h1
    simp [persistRetry, persistRetryAux, h0, h1]
  · intro body o conv hb hcr hp
    unfold handle_history_message process_message_completed_event
    simp only [hb, Bool.not_true, Bool.false_eq_true, if_false]
    rw [hcr]
    cases hpp : persist_conversation_to_cosmos conv o.llmTitle o.upsertOutcome o.now with
    | mk ws r =>
      rw [hpp] at hp
      simp only at hp
      cases r with
      | ok doc => cases hp
      | error e => simp [hpp]

/-- Witness for the amended C8: the all-throttle run raises after waits of
2 s and 4 s. -/
theorem history_store_retry_witness :
    persistRetry (fun _ => UpsertOutcome.throttle) = ([2, 4], .error ()) ∧
    persistRetry (fun n => if n = 0 then UpsertOutcome.throttle
      else UpsertOutcome.success) = ([2], .ok 1) :=
  ⟨(history_store_retry (fun _ => UpsertOutcome.throttle)).2.2.2.1 rfl rfl rfl,
   (history_store_retry (fun n => if n = 0 then UpsertOutcome.throttle
      else UpsertOutcome.success)).2.1 rfl rfl⟩

end ScalableChat
